import Mathlib

/-!
Verification of the meme-generator application (`src/types.ts`).

The development shallowly embeds the parts of the `App` component that the
claims speak about: the `useState` session slots, the state-resetting image
loader paths, the three AI-call handlers, the caption mutual-exclusion UI
events, and the canvas render effect (aspect-ratio scaling, manual top/bottom
caption drawing, and the magic-caption word-wrap loop).

Modeling conventions:
- Canvas text drawing becomes a list of `DrawCmd` values, one per
  `strokeText`/`fillText` call, carrying the ctx state in effect at the call.
- `ctx.measureText(s).width` is an arbitrary parameter `measure : String → ℕ`
  (the claims are stated for every measurement function, with monotonicity
  assumed only where a claim needs it).
- JavaScript floating-point arithmetic on pixel coordinates is modeled in ℚ
  (`1.1` becomes `11 / 10`, `Math.round` becomes `round`); the integer
  quantities (`canvas.width`, `fontSize`, `lineWidth`) stay in ℕ with
  `Math.floor` as natural-number division.
- JavaScript string truthiness becomes `≠ ""`; `s.split(' ')` becomes
  `List.splitOn ' '` on the character list; `s.toUpperCase()` is modeled
  characterwise by `Char.toUpper`.
- Each `async` handler is modeled as a function of the pre-call state and the
  settled outcome (`Except`) of its awaited AI call; the `finally` block is
  part of both result branches.
-/

namespace MemeGen

/-- `AppMode` from `src/types.ts`. -/
inductive AppMode
  | CAPTION
  | EDIT
  | ANALYZE
deriving DecidableEq

/-- The closed string union of `CaptionSuggestion.category` in `src/types.ts`. -/
inductive Category
  | Funny
  | Sarcastic
  | Relatable
  | Dark
  | Wholesome
deriving DecidableEq

/-- `CaptionSuggestion` from `src/types.ts`. -/
structure CaptionSuggestion where
  text : String
  category : Category
deriving DecidableEq

/-- `AnalysisResult` from `src/types.ts`. -/
structure AnalysisResult where
  description : String
  tags : List String
deriving DecidableEq

/-- The `useState` slots of the `App` component. -/
structure SessionState where
  mode : AppMode
  imageSrc : Option String
  isLoading : Bool
  error : Option String
  captions : List CaptionSuggestion
  selectedCaption : String
  topText : String
  bottomText : String
  editPrompt : String
  analysis : Option AnalysisResult
deriving DecidableEq

/-- The initial values of the `useState` hooks in `App`. -/
def initState : SessionState :=
  { mode := AppMode.CAPTION, imageSrc := none, isLoading := false, error := none,
    captions := [], selectedCaption := "", topText := "", bottomText := "",
    editPrompt := "", analysis := none }

/-- `resetState` from `App`: clears captions, selected caption, manual text,
edit prompt, analysis, and the displayed error. -/
def resetState (st : SessionState) : SessionState :=
  { st with captions := [], selectedCaption := "", topText := "", bottomText := "",
            editPrompt := "", analysis := none, error := none }

/-- Successful completion of `handleFileUpload` (the `FileReader.onload` path):
`setImageSrc(result)` followed by `resetState()`. -/
def handleFileUpload (st : SessionState) (dataUrl : String) : SessionState :=
  resetState { st with imageSrc := some dataUrl }

/-- Completion of `selectTemplate`. `Except.ok` is the `onloadend` path
(`setImageSrc`, `setIsLoading(false)`, `resetState()`); `Except.error` is the
catch block (`setError("Failed to load template")`, `setIsLoading(false)`). -/
def selectTemplate (st : SessionState) (result : Except String String) : SessionState :=
  match result with
  | Except.ok dataUrl => resetState { st with imageSrc := some dataUrl, isLoading := false }
  | Except.error _ => { st with error := some "Failed to load template", isLoading := false }

/-- JavaScript `msg || dflt` for strings: the default replaces an empty message. -/
def orDefault (msg dflt : String) : String :=
  if msg = "" then dflt else msg

/-- `handleMagicCaption`: guard `if (!imageSrc) return`, then
`setIsLoading(true); setError(null)`, the awaited call, `setCaptions` on
success or `setError(err.message || ...)` on failure, and the `finally`
block `setIsLoading(false)`. -/
def handleMagicCaption (st : SessionState)
    (result : Except String (List CaptionSuggestion)) : SessionState :=
  if st.imageSrc = none then st
  else
    match result with
    | Except.ok suggestions =>
        { st with error := none, captions := suggestions, isLoading := false }
    | Except.error msg =>
        { st with error := some (orDefault msg "Failed to generate captions"),
                  isLoading := false }

/-- `handleEditImage`: guard `if (!imageSrc || !editPrompt) return`, then the
same try/catch/finally shape, replacing the image and clearing the prompt on
success. -/
def handleEditImage (st : SessionState) (result : Except String String) : SessionState :=
  if st.imageSrc = none ∨ st.editPrompt = "" then st
  else
    match result with
    | Except.ok newImageBase64 =>
        { st with error := none, imageSrc := some newImageBase64, editPrompt := "",
                  isLoading := false }
    | Except.error msg =>
        { st with error := some (orDefault msg "Failed to edit image"),
                  isLoading := false }

/-- `handleAnalyzeImage`: guard `if (!imageSrc) return`, then the same
try/catch/finally shape, storing the analysis result on success. -/
def handleAnalyzeImage (st : SessionState)
    (result : Except String AnalysisResult) : SessionState :=
  if st.imageSrc = none then st
  else
    match result with
    | Except.ok r =>
        { st with error := none, analysis := some r, isLoading := false }
    | Except.error msg =>
        { st with error := some (orDefault msg "Failed to analyze image"),
                  isLoading := false }

/-- The caption-mutating UI events of `App`: clicking a suggestion, and typing
into the top or bottom manual-text input. -/
inductive CaptionOp
  | selectSuggestion (cap : CaptionSuggestion)
  | setTopText (s : String)
  | setBottomText (s : String)

/-- The `onClick` handler of a suggestion button
(`setSelectedCaption(cap.text); setTopText(""); setBottomText("")`) and the
`onChange` handlers of the two manual-text inputs
(`setTopText(value); setSelectedCaption("")` and symmetrically). -/
def applyCaptionOp (st : SessionState) : CaptionOp → SessionState
  | CaptionOp.selectSuggestion cap =>
      { st with selectedCaption := cap.text, topText := "", bottomText := "" }
  | CaptionOp.setTopText s =>
      { st with topText := s, selectedCaption := "" }
  | CaptionOp.setBottomText s =>
      { st with bottomText := s, selectedCaption := "" }

/-- At most one of the two caption representations (manual top/bottom text
vs. selected magic caption) is non-empty. -/
def captionExclusive (st : SessionState) : Prop :=
  ¬ (st.selectedCaption ≠ "" ∧ (st.topText ≠ "" ∨ st.bottomText ≠ ""))

/-- The canvas resize logic of the render effect: fit the image's native
dimensions within `maxDim = 600`, shrinking uniformly (branching on
`width > height`), never enlarging. `Math.round` is modeled by `round` on ℚ. -/
def scaleDims (w h : ℕ) : ℕ × ℕ :=
  if 600 < w ∨ 600 < h then
    if h < w then (600, (round ((h : ℚ) * 600 / (w : ℚ))).toNat)
    else ((round ((w : ℚ) * 600 / (h : ℚ))).toNat, 600)
  else (w, h)

/-- Whether a recorded canvas text call is `strokeText` or `fillText`. -/
inductive DrawKind
  | stroke
  | fill
deriving DecidableEq

/-- The `ctx.textBaseline` value in effect at a text call. -/
inductive TextBaseline
  | top
  | bottom
deriving DecidableEq

/-- One canvas text call together with the ctx state in effect at the call
(font size from `ctx.font`, `ctx.lineWidth`, and the stroke or fill color). -/
structure DrawCmd where
  kind : DrawKind
  text : String
  x : ℚ
  y : ℚ
  baseline : TextBaseline
  fontSize : ℕ
  lineWidth : ℕ
  color : String
deriving DecidableEq

/-- `ctx.strokeText(text, x, y)` immediately followed by
`ctx.fillText(text, x, y)`, as the source always emits them: the stroke in
`strokeStyle = 'black'`, the fill in `fillStyle = 'white'`. -/
def drawRun (text : String) (x y : ℚ) (baseline : TextBaseline)
    (fontSize lineWidth : ℕ) : List DrawCmd :=
  [{ kind := DrawKind.stroke, text := text, x := x, y := y, baseline := baseline,
     fontSize := fontSize, lineWidth := lineWidth, color := "black" },
   { kind := DrawKind.fill, text := text, x := x, y := y, baseline := baseline,
     fontSize := fontSize, lineWidth := lineWidth, color := "white" }]

/-- JavaScript `s.split(' ')`: split at every single space character
(`"".split(' ')` gives `[""]`, adjacent spaces give empty pieces). -/
def splitSpaces (s : String) : List String :=
  (s.toList.splitOn ' ').map String.mk

/-- JavaScript `s.toUpperCase()`, modeled characterwise by `Char.toUpper`. -/
def toUpperStr (s : String) : String :=
  String.mk (s.toList.map Char.toUpper)

/-- The magic-caption wrap loop of the render effect:
`testLine = line + words[n] + ' '`; push `line` and restart from `words[n]`
when `measureText(testLine).width > width - 40 && n > 0`, else accumulate;
after the loop the pending `line` is pushed. `n` is the loop counter and
`lineArray` the accumulator. -/
def wrapLoop (measure : String → ℕ) (width : ℕ) :
    List String → ℕ → String → List String → List String
  | [], _, line, lineArray => lineArray ++ [line]
  | w :: ws, n, line, lineArray =>
    let testLine := line ++ w ++ " "
    if (measure testLine : ℤ) > (width : ℤ) - 40 ∧ 0 < n then
      wrapLoop measure width ws (n + 1) (w ++ " ") (lineArray ++ [line])
    else
      wrapLoop measure width ws (n + 1) testLine lineArray

/-- The full magic-caption wrap: `selectedCaption.split(' ')` fed through the
wrap loop starting from `n = 0`, `line = ''`, `lineArray = []`. -/
def wrapCaption (measure : String → ℕ) (width : ℕ) (selectedCaption : String) :
    List String :=
  wrapLoop measure width (splitSpaces selectedCaption) 0 "" []

/-- Baseline y of wrapped line `i` among `k` lines:
`y = height - 20 - (k - 1) * fontSize` plus the per-line offset
`i * fontSize * 1.1` from the draw loop. -/
def magicY (height fontSize k i : ℕ) : ℚ :=
  (height : ℚ) - 20 - ((k : ℚ) - 1) * (fontSize : ℚ) +
    (i : ℚ) * ((fontSize : ℚ) * (11 / 10))

/-- The text-drawing part of the render effect, run in CAPTION mode on the
already-scaled `width`/`height`: compute `displayText`, set up font, colors
and line width, then either the manual top/bottom branch or the magic-caption
wrap-and-stack branch. -/
def renderTextCmds (measure : String → ℕ) (width height : ℕ)
    (selectedCaption topText bottomText : String) : List DrawCmd :=
  let displayText :=
    if selectedCaption ≠ "" then selectedCaption
    else topText ++ (if bottomText ≠ "" then "\n" ++ bottomText else "")
  let fontSize := width / 10
  let lineWidth := fontSize / 8
  if displayText ≠ "" then
    if topText ≠ "" ∨ bottomText ≠ "" then
      (if topText ≠ "" then
         drawRun (toUpperStr topText) ((width : ℚ) / 2) 10
           TextBaseline.top fontSize lineWidth
       else []) ++
      (if bottomText ≠ "" then
         drawRun (toUpperStr bottomText) ((width : ℚ) / 2) ((height : ℚ) - 10)
           TextBaseline.bottom fontSize lineWidth
       else [])
    else if selectedCaption ≠ "" then
      let lineArray := wrapCaption measure width selectedCaption
      lineArray.enum.flatMap (fun p =>
        drawRun (toUpperStr p.2) ((width : ℚ) / 2)
          (magicY height fontSize lineArray.length p.1)
          TextBaseline.bottom fontSize lineWidth)
    else []
  else []

/-- The output of one run of the render effect: the scaled canvas dimensions
and the text calls drawn over the image. -/
structure Surface where
  width : ℕ
  height : ℕ
  cmds : List DrawCmd
deriving DecidableEq

/-- The whole canvas render effect: scale the image, draw it, then draw text
only when `mode === AppMode.CAPTION`. -/
def renderSurface (measure : String → ℕ) (mode : AppMode) (imgW imgH : ℕ)
    (selectedCaption topText bottomText : String) : Surface :=
  { width := (scaleDims imgW imgH).1, height := (scaleDims imgW imgH).2,
    cmds :=
      if mode = AppMode.CAPTION then
        renderTextCmds measure (scaleDims imgW imgH).1 (scaleDims imgW imgH).2
          selectedCaption topText bottomText
      else [] }

/-! ### Helper lemmas on strings -/

theorem length_eq_zero_iff (s : String) : s.length = 0 ↔ s = "" := by
  constructor
  · intro h
    exact String.ext ((List.length_eq_zero.mp h).trans rfl)
  · intro h
    simp [h]

theorem append_ne_empty_left {s : String} (t : String) (h : s ≠ "") : s ++ t ≠ "" := by
  intro hcontra
  apply h
  have hlen : (s ++ t).length = 0 := (length_eq_zero_iff _).mpr hcontra
  rw [String.length_append] at hlen
  exact (length_eq_zero_iff s).mp (by omega)

theorem append_ne_empty_right (s : String) {t : String} (h : t ≠ "") : s ++ t ≠ "" := by
  intro hcontra
  apply h
  have hlen : (s ++ t).length = 0 := (length_eq_zero_iff _).mpr hcontra
  rw [String.length_append] at hlen
  exact (length_eq_zero_iff t).mp (by omega)

theorem foldl_append_eq (l : List String) (s : String) :
    l.foldl (· ++ ·) s = s ++ l.foldl (· ++ ·) "" := by
  induction l generalizing s with
  | nil => simp
  | cons x xs ih =>
    simp only [List.foldl_cons]
    rw [ih (s ++ x), ih ("" ++ x), String.append_assoc, String.empty_append]

theorem join_append (a b : List String) :
    String.join (a ++ b) = String.join a ++ String.join b := by
  rw [String.join, String.join, String.join, List.foldl_append, foldl_append_eq]

theorem join_singleton (s : String) : String.join [s] = s := by
  rw [String.join]
  simp

/-! ### Claim C3: surface scaling -/

/-- Claim C3: for every image with native dimensions (w, h), the rendered
surface dimensions equal (600, round(h·600/w)) when w ≥ h and w > 600,
symmetrically (round(w·600/h), 600) when h ≥ w and h > 600, and the image is
never scaled up: when both dimensions are ≤ 600 the surface is exactly w×h. -/
theorem C3_surface_scaling (w h : ℕ) :
    (h ≤ w ∧ 600 < w →
      scaleDims w h = (600, (round ((h : ℚ) * 600 / (w : ℚ))).toNat)) ∧
    (w ≤ h ∧ 600 < h →
      scaleDims w h = ((round ((w : ℚ) * 600 / (h : ℚ))).toNat, 600)) ∧
    (w ≤ 600 ∧ h ≤ 600 → scaleDims w h = (w, h)) := by
  refine ⟨?_, ?_, ?_⟩
  · rintro ⟨hle, hgt⟩
    rw [scaleDims, if_pos (Or.inl hgt)]
    rcases lt_or_eq_of_le hle with hlt | heq
    · rw [if_pos hlt]
    · subst heq
      rw [if_neg (lt_irrefl h)]
      have hh : (h : ℚ) ≠ 0 := Nat.cast_ne_zero.mpr (by omega)
      have hq : (h : ℚ) * 600 / (h : ℚ) = 600 := by
        rw [mul_comm, mul_div_assoc, div_self hh, mul_one]
      have h600 : round ((600 : ℚ)) = (600 : ℤ) := by norm_num
      rw [hq, h600]
      rfl
  · rintro ⟨hle, hgt⟩
    rw [scaleDims, if_pos (Or.inr hgt), if_neg (by omega)]
  · rintro ⟨h1, h2⟩
    rw [scaleDims, if_neg (by omega)]

/-- Witness for C3: an 800×400 image is scaled to exactly 600×300. -/
theorem C3_witness :
    ((400 : ℕ) ≤ 800 ∧ (600 : ℕ) < 800) ∧ scaleDims 800 400 = (600, 300) := by
  refine ⟨⟨by omega, by omega⟩, ?_⟩
  have h := (C3_surface_scaling 800 400).1 ⟨by omega, by omega⟩
  have h300 : round (((400 : ℕ) : ℚ) * 600 / ((800 : ℕ) : ℚ)) = (300 : ℤ) := by norm_num
  rw [h, h300]
  rfl

/-! ### Claim C6: caption mutual exclusion -/

theorem captionExclusive_applyCaptionOp (st : SessionState) (op : CaptionOp) :
    captionExclusive (applyCaptionOp st op) := by
  cases op <;> simp [captionExclusive, applyCaptionOp]

theorem captionExclusive_foldl (ops : List CaptionOp) (st : SessionState)
    (h : captionExclusive st) :
    captionExclusive (ops.foldl applyCaptionOp st) := by
  induction ops generalizing st with
  | nil => exact h
  | cons op ops ih => exact ih _ (captionExclusive_applyCaptionOp st op)

/-- Claim C6: selecting a magic-caption suggestion sets the selected caption
and clears both manual strings; editing either manual string clears the
selected caption; hence in every state reachable from the initial state
through these operations, at most one of the two caption representations is
non-empty. -/
theorem C6_caption_mutual_exclusion :
    (∀ (st : SessionState) (cap : CaptionSuggestion),
      (applyCaptionOp st (CaptionOp.selectSuggestion cap)).selectedCaption = cap.text ∧
      (applyCaptionOp st (CaptionOp.selectSuggestion cap)).topText = "" ∧
      (applyCaptionOp st (CaptionOp.selectSuggestion cap)).bottomText = "") ∧
    (∀ (st : SessionState) (s : String),
      (applyCaptionOp st (CaptionOp.setTopText s)).selectedCaption = "" ∧
      (applyCaptionOp st (CaptionOp.setTopText s)).topText = s) ∧
    (∀ (st : SessionState) (s : String),
      (applyCaptionOp st (CaptionOp.setBottomText s)).selectedCaption = "" ∧
      (applyCaptionOp st (CaptionOp.setBottomText s)).bottomText = s) ∧
    (∀ ops : List CaptionOp,
      captionExclusive (List.foldl applyCaptionOp initState ops)) := by
  refine ⟨fun st cap => ⟨rfl, rfl, rfl⟩, fun st s => ⟨rfl, rfl⟩,
    fun st s => ⟨rfl, rfl⟩, fun ops => ?_⟩
  apply captionExclusive_foldl
  simp [captionExclusive, initState]

/-- Witness for C6 at a concrete operation sequence: type top text, then
select a suggestion. -/
theorem C6_witness :
    captionExclusive (List.foldl applyCaptionOp initState
      [CaptionOp.setTopText "hi",
       CaptionOp.selectSuggestion { text := "lol", category := Category.Funny }]) :=
  C6_caption_mutual_exclusion.2.2.2 _

/-! ### Claim C7: render determinism -/

/-- Claim C7: the layout/render routine is deterministic: two runs on
identical inputs (same image dimensions, caption state, mode, and pointwise
identical text-measurement results) produce identical surfaces. -/
theorem C7_render_deterministic (m1 m2 : String → ℕ) (mode : AppMode)
    (imgW imgH : ℕ) (selectedCaption topText bottomText : String)
    (h : ∀ s, m1 s = m2 s) :
    renderSurface m1 mode imgW imgH selectedCaption topText bottomText =
      renderSurface m2 mode imgW imgH selectedCaption topText bottomText := by
  have hm : m1 = m2 := funext h
  rw [hm]

/-- Witness for C7 at a concrete input. -/
theorem C7_witness :
    renderSurface String.length AppMode.CAPTION 10 10 "a" "" "" =
      renderSurface String.length AppMode.CAPTION 10 10 "a" "" "" :=
  C7_render_deterministic String.length String.length AppMode.CAPTION 10 10 "a" "" ""
    (fun _ => rfl)

/-! ### Claim C9: loader full state reset -/

/-- Claim C9: every successful image load (file upload or template selection)
replaces the image and clears the captions list, selected caption, manual
top/bottom text, edit prompt, analysis result, and displayed error. -/
theorem C9_loader_resets_state (st : SessionState) (dataUrl : String) :
    ((handleFileUpload st dataUrl).imageSrc = some dataUrl ∧
     (handleFileUpload st dataUrl).captions = [] ∧
     (handleFileUpload st dataUrl).selectedCaption = "" ∧
     (handleFileUpload st dataUrl).topText = "" ∧
     (handleFileUpload st dataUrl).bottomText = "" ∧
     (handleFileUpload st dataUrl).editPrompt = "" ∧
     (handleFileUpload st dataUrl).analysis = none ∧
     (handleFileUpload st dataUrl).error = none) ∧
    ((selectTemplate st (Except.ok dataUrl)).imageSrc = some dataUrl ∧
     (selectTemplate st (Except.ok dataUrl)).captions = [] ∧
     (selectTemplate st (Except.ok dataUrl)).selectedCaption = "" ∧
     (selectTemplate st (Except.ok dataUrl)).topText = "" ∧
     (selectTemplate st (Except.ok dataUrl)).bottomText = "" ∧
     (selectTemplate st (Except.ok dataUrl)).editPrompt = "" ∧
     (selectTemplate st (Except.ok dataUrl)).analysis = none ∧
     (selectTemplate st (Except.ok dataUrl)).error = none ∧
     (selectTemplate st (Except.ok dataUrl)).isLoading = false) :=
  ⟨⟨rfl, rfl, rfl, rfl, rfl, rfl, rfl, rfl⟩,
   ⟨rfl, rfl, rfl, rfl, rfl, rfl, rfl, rfl, rfl⟩⟩

/-! ### Claim C10: mode-gated caption rendering -/

/-- Claim C10: in EDIT or ANALYZE mode the rendered surface is the plain
scaled image with no text drawn, regardless of the caption state; text is
composited only in CAPTION mode. -/
theorem C10_mode_gated_rendering (measure : String → ℕ) (mode : AppMode)
    (imgW imgH : ℕ) (selectedCaption topText bottomText : String)
    (h : mode = AppMode.EDIT ∨ mode = AppMode.ANALYZE) :
    (renderSurface measure mode imgW imgH selectedCaption topText bottomText).cmds = [] ∧
    (renderSurface measure mode imgW imgH selectedCaption topText bottomText).width =
      (scaleDims imgW imgH).1 ∧
    (renderSurface measure mode imgW imgH selectedCaption topText bottomText).height =
      (scaleDims imgW imgH).2 := by
  rcases h with h | h <;> subst h <;> exact ⟨rfl, rfl, rfl⟩

/-- Witness for C10 at a concrete input with non-empty caption state. -/
theorem C10_witness :
    (AppMode.EDIT = AppMode.EDIT ∨ AppMode.EDIT = AppMode.ANALYZE) ∧
    (renderSurface String.length AppMode.EDIT 800 400 "cap" "top text" "bottom text").cmds = [] :=
  ⟨Or.inl rfl,
   (C10_mode_gated_rendering String.length AppMode.EDIT 800 400 "cap" "top text" "bottom text"
     (Or.inl rfl)).1⟩

/-! ### Claim C8: failure atomicity and busy-flag cleanup -/

/-- A concrete mid-operation session state used by witnesses. -/
def sampleState : SessionState :=
  { initState with imageSrc := some "data:image/png;base64,AAAA",
                   editPrompt := "add a cat", isLoading := true }

/-- Claim C8: for every AI call (generate captions, edit image, analyze image)
whose guard passed and whose awaited call fails, every session slot (image,
captions, selected caption, manual text, edit prompt, analysis) keeps its
pre-call value, an error message is set, and the busy flag is cleared; the
busy flag is likewise cleared on the success path. -/
theorem C8_failure_atomicity (st : SessionState) (msg : String) :
    (st.imageSrc ≠ none →
      (handleMagicCaption st (Except.error msg)).imageSrc = st.imageSrc ∧
      (handleMagicCaption st (Except.error msg)).captions = st.captions ∧
      (handleMagicCaption st (Except.error msg)).selectedCaption = st.selectedCaption ∧
      (handleMagicCaption st (Except.error msg)).topText = st.topText ∧
      (handleMagicCaption st (Except.error msg)).bottomText = st.bottomText ∧
      (handleMagicCaption st (Except.error msg)).editPrompt = st.editPrompt ∧
      (handleMagicCaption st (Except.error msg)).analysis = st.analysis ∧
      (handleMagicCaption st (Except.error msg)).error =
        some (orDefault msg "Failed to generate captions") ∧
      (handleMagicCaption st (Except.error msg)).isLoading = false) ∧
    (st.imageSrc ≠ none → st.editPrompt ≠ "" →
      (handleEditImage st (Except.error msg)).imageSrc = st.imageSrc ∧
      (handleEditImage st (Except.error msg)).captions = st.captions ∧
      (handleEditImage st (Except.error msg)).selectedCaption = st.selectedCaption ∧
      (handleEditImage st (Except.error msg)).topText = st.topText ∧
      (handleEditImage st (Except.error msg)).bottomText = st.bottomText ∧
      (handleEditImage st (Except.error msg)).editPrompt = st.editPrompt ∧
      (handleEditImage st (Except.error msg)).analysis = st.analysis ∧
      (handleEditImage st (Except.error msg)).error =
        some (orDefault msg "Failed to edit image") ∧
      (handleEditImage st (Except.error msg)).isLoading = false) ∧
    (st.imageSrc ≠ none →
      (handleAnalyzeImage st (Except.error msg)).imageSrc = st.imageSrc ∧
      (handleAnalyzeImage st (Except.error msg)).captions = st.captions ∧
      (handleAnalyzeImage st (Except.error msg)).selectedCaption = st.selectedCaption ∧
      (handleAnalyzeImage st (Except.error msg)).topText = st.topText ∧
      (handleAnalyzeImage st (Except.error msg)).bottomText = st.bottomText ∧
      (handleAnalyzeImage st (Except.error msg)).editPrompt = st.editPrompt ∧
      (handleAnalyzeImage st (Except.error msg)).analysis = st.analysis ∧
      (handleAnalyzeImage st (Except.error msg)).error =
        some (orDefault msg "Failed to analyze image") ∧
      (handleAnalyzeImage st (Except.error msg)).isLoading = false) ∧
    (∀ suggestions, st.imageSrc ≠ none →
      (handleMagicCaption st (Except.ok suggestions)).isLoading = false) ∧
    (∀ newImage, st.imageSrc ≠ none → st.editPrompt ≠ "" →
      (handleEditImage st (Except.ok newImage)).isLoading = false) ∧
    (∀ r, st.imageSrc ≠ none →
      (handleAnalyzeImage st (Except.ok r)).isLoading = false) := by
  refine ⟨?_, ?_, ?_, ?_, ?_, ?_⟩
  · intro h
    simp [handleMagicCaption, h]
  · intro h1 h2
    simp [handleEditImage, h1, h2]
  · intro h
    simp [handleAnalyzeImage, h]
  · intro suggestions h
    simp [handleMagicCaption, h]
  · intro newImage h1 h2
    simp [handleEditImage, h1, h2]
  · intro r h
    simp [handleAnalyzeImage, h]

/-- Witness for C8: a failing edit call on a concrete busy state keeps the
image and prompt, sets the error, and clears the busy flag. -/
theorem C8_witness :
    (sampleState.imageSrc ≠ none ∧ sampleState.editPrompt ≠ "") ∧
    (handleEditImage sampleState (Except.error "boom")).imageSrc = sampleState.imageSrc ∧
    (handleEditImage sampleState (Except.error "boom")).editPrompt = sampleState.editPrompt ∧
    (handleEditImage sampleState (Except.error "boom")).error =
      some (orDefault "boom" "Failed to edit image") ∧
    (handleEditImage sampleState (Except.error "boom")).isLoading = false := by
  have h := (C8_failure_atomicity sampleState "boom").2.1
    (by simp [sampleState, initState]) (by simp [sampleState, initState])
  exact ⟨⟨by simp [sampleState, initState], by simp [sampleState, initState]⟩,
    h.1, h.2.2.2.2.2.1, h.2.2.2.2.2.2.2.1, h.2.2.2.2.2.2.2.2⟩

/-! ### Claim C4: manual-caption placement -/

theorem renderTextCmds_manual (measure : String → ℕ) (width height : ℕ)
    (selectedCaption topText bottomText : String)
    (h : topText ≠ "" ∨ bottomText ≠ "") :
    renderTextCmds measure width height selectedCaption topText bottomText =
      (if topText ≠ "" then
         drawRun (toUpperStr topText) ((width : ℚ) / 2) 10
           TextBaseline.top (width / 10) (width / 10 / 8)
       else []) ++
      (if bottomText ≠ "" then
         drawRun (toUpperStr bottomText) ((width : ℚ) / 2) ((height : ℚ) - 10)
           TextBaseline.bottom (width / 10) (width / 10 / 8)
       else []) := by
  rw [renderTextCmds]
  have hdisp :
      (if selectedCaption ≠ "" then selectedCaption
       else topText ++ (if bottomText ≠ "" then "\n" ++ bottomText else "")) ≠ "" := by
    by_cases hsel : selectedCaption = ""
    · rw [if_neg (by simp [hsel])]
      by_cases htop : topText = ""
      · have hbot : bottomText ≠ "" := by
          rcases h with h | h
          · exact absurd htop h
          · exact h
        rw [if_pos hbot, htop, String.empty_append]
        exact append_ne_empty_left bottomText (by decide)
      · exact append_ne_empty_left _ htop
    · rw [if_pos hsel]
      exact hsel
  rw [if_pos hdisp, if_pos h]

theorem renderTextCmds_magic (measure : String → ℕ) (width height : ℕ)
    (selectedCaption : String) (hsel : selectedCaption ≠ "") :
    renderTextCmds measure width height selectedCaption "" "" =
      (wrapCaption measure width selectedCaption).enum.flatMap (fun p =>
        drawRun (toUpperStr p.2) ((width : ℚ) / 2)
          (magicY height (width / 10) (wrapCaption measure width selectedCaption).length p.1)
          TextBaseline.bottom (width / 10) (width / 10 / 8)) := by
  simp [renderTextCmds, hsel]

theorem renderTextCmds_empty (measure : String → ℕ) (width height : ℕ) :
    renderTextCmds measure width height "" "" "" = [] := by
  simp [renderTextCmds]

/-- Claim C4: whenever the top and/or bottom manual strings are non-empty,
the top string is drawn upper-cased as a single line anchored top-center 10px
from the top edge, the bottom string upper-cased as a single line anchored
bottom-center 10px from the bottom edge; an empty slot produces no draw call
and no wrapping occurs in this mode. -/
theorem C4_manual_caption_placement (measure : String → ℕ) (width height : ℕ)
    (selectedCaption topText bottomText : String)
    (h : topText ≠ "" ∨ bottomText ≠ "") :
    renderTextCmds measure width height selectedCaption topText bottomText =
      (if topText ≠ "" then
         drawRun (toUpperStr topText) ((width : ℚ) / 2) 10
           TextBaseline.top (width / 10) (width / 10 / 8)
       else []) ++
      (if bottomText ≠ "" then
         drawRun (toUpperStr bottomText) ((width : ℚ) / 2) ((height : ℚ) - 10)
           TextBaseline.bottom (width / 10) (width / 10 / 8)
       else []) :=
  renderTextCmds_manual measure width height selectedCaption topText bottomText h

/-- Witness for C4 at concrete manual strings on a 600×300 surface. -/
theorem C4_witness :
    (("hello" : String) ≠ "" ∨ ("world" : String) ≠ "") ∧
    renderTextCmds String.length 600 300 "" "hello" "world" =
      (if ("hello" : String) ≠ "" then
         drawRun (toUpperStr "hello") (((600 : ℕ) : ℚ) / 2) 10
           TextBaseline.top (600 / 10) (600 / 10 / 8)
       else []) ++
      (if ("world" : String) ≠ "" then
         drawRun (toUpperStr "world") (((600 : ℕ) : ℚ) / 2) (((300 : ℕ) : ℚ) - 10)
           TextBaseline.bottom (600 / 10) (600 / 10 / 8)
       else []) :=
  ⟨Or.inl (by decide),
   C4_manual_caption_placement String.length 600 300 "" "hello" "world" (Or.inl (by decide))⟩

/-! ### Claim C5: text styling parameters -/

/-- One glyph run of the render effect: text, position, and baseline; a run
always expands to a black stroke followed by a white fill at font size
`floor(width/10)` and line width `floor(fontSize/8)`. -/
def styledRun (width : ℕ) (r : String × ℚ × ℚ × TextBaseline) : List DrawCmd :=
  drawRun r.1 r.2.1 r.2.2.1 r.2.2.2 (width / 10) (width / 10 / 8)

theorem mem_drawRun_fields (t : String) (x y : ℚ) (b : TextBaseline)
    (fs lw : ℕ) (c : DrawCmd) (hc : c ∈ drawRun t x y b fs lw) :
    c.fontSize = fs ∧ c.lineWidth = lw ∧
    (c.kind = DrawKind.stroke → c.color = "black") ∧
    (c.kind = DrawKind.fill → c.color = "white") := by
  simp only [drawRun, List.mem_cons, List.mem_singleton] at hc
  rcases hc with rfl | rfl | hc
  · exact ⟨rfl, rfl, fun _ => rfl, by simp⟩
  · exact ⟨rfl, rfl, by simp, fun _ => rfl⟩
  · cases hc

theorem renderTextCmds_eq_flatMap (measure : String → ℕ) (width height : ℕ)
    (selectedCaption topText bottomText : String) :
    ∃ runs : List (String × ℚ × ℚ × TextBaseline),
      renderTextCmds measure width height selectedCaption topText bottomText =
        runs.flatMap (styledRun width) := by
  by_cases hman : topText = "" ∧ bottomText = ""
  · obtain ⟨htop, hbot⟩ := hman
    subst htop
    subst hbot
    by_cases hsel : selectedCaption = ""
    · subst hsel
      exact ⟨[], by rw [renderTextCmds_empty]; rfl⟩
    · rw [renderTextCmds_magic measure width height selectedCaption hsel]
      refine ⟨(wrapCaption measure width selectedCaption).enum.map (fun p =>
        (toUpperStr p.2,
         ((width : ℚ) / 2,
          magicY height (width / 10) (wrapCaption measure width selectedCaption).length p.1,
          TextBaseline.bottom))), ?_⟩
      rw [List.flatMap_map]
      exact congrArg _ (funext fun p => rfl)
  · have h : topText ≠ "" ∨ bottomText ≠ "" := by tauto
    rw [renderTextCmds_manual measure width height selectedCaption topText bottomText h]
    refine ⟨(if topText ≠ "" then
        [(toUpperStr topText, ((width : ℚ) / 2, (10 : ℚ), TextBaseline.top))] else []) ++
      (if bottomText ≠ "" then
        [(toUpperStr bottomText,
          ((width : ℚ) / 2, ((height : ℚ) - 10), TextBaseline.bottom))] else []), ?_⟩
    rw [List.flatMap_append]
    by_cases htop : topText = "" <;> by_cases hbot : bottomText = "" <;>
      simp [htop, hbot, styledRun]

theorem renderTextCmds_styling (measure : String → ℕ) (width height : ℕ)
    (selectedCaption topText bottomText : String) :
    ∀ c ∈ renderTextCmds measure width height selectedCaption topText bottomText,
      c.fontSize = width / 10 ∧ c.lineWidth = width / 10 / 8 ∧
      (c.kind = DrawKind.stroke → c.color = "black") ∧
      (c.kind = DrawKind.fill → c.color = "white") := by
  obtain ⟨runs, hruns⟩ :=
    renderTextCmds_eq_flatMap measure width height selectedCaption topText bottomText
  rw [hruns]
  intro c hc
  rw [List.mem_flatMap] at hc
  obtain ⟨r, _, hcr⟩ := hc
  exact mem_drawRun_fields _ _ _ _ _ _ c hcr

theorem scaleDims_800_400 : scaleDims 800 400 = (600, 300) := by
  rw [scaleDims, if_pos (Or.inl (by norm_num : (600 : ℕ) < 800)),
    if_pos (by norm_num : (400 : ℕ) < 800)]
  have h300 : round (((400 : ℕ) : ℚ) * 600 / ((800 : ℕ) : ℚ)) = (300 : ℤ) := by norm_num
  rw [h300]
  rfl

/-- Claim C5: every drawn glyph run uses font size floor(width/10) and stroke
(line) width floor(fontSize/8), and is stroked in black then filled in white;
in particular an 800×400 image yields a 600×300 surface whose every glyph run
has font size 60. -/
theorem C5_text_styling (measure : String → ℕ) (width height : ℕ)
    (selectedCaption topText bottomText : String) :
    (∀ c ∈ renderTextCmds measure width height selectedCaption topText bottomText,
      c.fontSize = width / 10 ∧ c.lineWidth = width / 10 / 8 ∧
      (c.kind = DrawKind.stroke → c.color = "black") ∧
      (c.kind = DrawKind.fill → c.color = "white")) ∧
    (∃ runs : List (String × ℚ × ℚ × TextBaseline),
      renderTextCmds measure width height selectedCaption topText bottomText =
        runs.flatMap (styledRun width)) ∧
    scaleDims 800 400 = (600, 300) ∧
    (600 : ℕ) / 10 = 60 ∧
    (∀ c ∈ (renderSurface measure AppMode.CAPTION 800 400
        selectedCaption topText bottomText).cmds, c.fontSize = 60) := by
  refine ⟨renderTextCmds_styling measure width height selectedCaption topText bottomText,
    renderTextCmds_eq_flatMap measure width height selectedCaption topText bottomText,
    scaleDims_800_400, by norm_num, ?_⟩
  intro c hc
  have hcmds : (renderSurface measure AppMode.CAPTION 800 400
      selectedCaption topText bottomText).cmds =
      renderTextCmds measure 600 300 selectedCaption topText bottomText := by
    simp [renderSurface, scaleDims_800_400]
  rw [hcmds] at hc
  have h2 := renderTextCmds_styling measure 600 300 selectedCaption topText bottomText c hc
  rw [h2.1]

/-- Witness for C5: the concrete 800×400 scenario gives a 600×300 surface and
font size 60. -/
theorem C5_witness :
    scaleDims 800 400 = (600, 300) ∧ (600 : ℕ) / 10 = 60 :=
  ⟨(C5_text_styling String.length 800 400 "" "hello" "world").2.2.1,
   (C5_text_styling String.length 800 400 "" "hello" "world").2.2.2.1⟩

/-! ### Claim C2: magic-caption vertical placement -/

/-- Claim C2 as stated is false on the code: with caption "aaaa bbbb",
measurement 20·length and a 100×100 surface (font size 10) the caption wraps
into two lines, and the bottom line's baseline is drawn at y = 81, not at
height - 20 = 80: the draw loop starts at `height - 20 - (k-1)*fontSize` but
advances by `fontSize * 1.1`. -/
theorem C2_counterexample :
    (wrapCaption (fun s => 20 * s.length) 100 "aaaa bbbb").length = 2 ∧
    (renderTextCmds (fun s => 20 * s.length) 100 100 "aaaa bbbb" "" "").map DrawCmd.y =
      [70, 70, 81, 81] ∧
    (81 : ℚ) ≠ (100 : ℚ) - 20 := by
  have hwrap : wrapCaption (fun s => 20 * s.length) 100 "aaaa bbbb" =
      ["aaaa ", "bbbb "] := by decide
  refine ⟨by rw [hwrap]; rfl, ?_, by norm_num⟩
  rw [renderTextCmds_magic (fun s => 20 * s.length) 100 100 "aaaa bbbb" (by decide), hwrap]
  simp [List.enum, List.enumFrom, drawRun, magicY]
  norm_num

/-- Claim C2 (amended): the magic-caption lines are drawn bottom-anchored with
baselines `magicY`, consecutive lines are spaced by `fontSize * 1.1`, and the
bottom (k-th) line's baseline sits at `height - 20 + (k-1)*fontSize/10`, i.e.
exactly 20px above the bottom edge only when k = 1; for k ≥ 2 it sits
`(k-1)*fontSize/10` px lower than the claimed position. -/
theorem C2_magic_vertical_placement (measure : String → ℕ)
    (width height fontSize k : ℕ) (selectedCaption : String)
    (hsel : selectedCaption ≠ "") (hk : 1 ≤ k) :
    renderTextCmds measure width height selectedCaption "" "" =
      (wrapCaption measure width selectedCaption).enum.flatMap (fun p =>
        drawRun (toUpperStr p.2) ((width : ℚ) / 2)
          (magicY height (width / 10) (wrapCaption measure width selectedCaption).length p.1)
          TextBaseline.bottom (width / 10) (width / 10 / 8)) ∧
    magicY height fontSize k (k - 1) =
      (height : ℚ) - 20 + ((k : ℚ) - 1) * (fontSize : ℚ) / 10 ∧
    (∀ i : ℕ, magicY height fontSize k (i + 1) - magicY height fontSize k i =
      (fontSize : ℚ) * (11 / 10)) := by
  refine ⟨renderTextCmds_magic measure width height selectedCaption hsel, ?_, ?_⟩
  · rw [magicY]
    have hcast : ((k - 1 : ℕ) : ℚ) = (k : ℚ) - 1 := by
      push_cast [hk]
      ring
    rw [hcast]
    ring
  · intro i
    rw [magicY, magicY]
    push_cast
    ring

/-- Witness for C2 (amended) at k = 2, height 100, font size 10. -/
theorem C2_witness :
    (("lol" : String) ≠ "" ∧ (1 : ℕ) ≤ 2) ∧
    magicY 100 10 2 (2 - 1) =
      ((100 : ℕ) : ℚ) - 20 + (((2 : ℕ) : ℚ) - 1) * ((10 : ℕ) : ℚ) / 10 :=
  ⟨⟨by decide, by omega⟩,
   (C2_magic_vertical_placement String.length 100 100 10 2 "lol"
     (by decide) (by omega)).2.1⟩

/-! ### Claim C1: magic-caption word wrapping -/

theorem join_cons (s : String) (l : List String) :
    String.join (s :: l) = s ++ String.join l := by
  rw [show s :: l = [s] ++ l from rfl, join_append, join_singleton]

theorem wrapLoop_exists_tail (measure : String → ℕ) (width : ℕ) (ws : List String) :
    ∀ (n : ℕ) (line : String) (acc : List String),
      ∃ tail, wrapLoop measure width ws n line acc = acc ++ tail := by
  induction ws with
  | nil => exact fun n line acc => ⟨[line], rfl⟩
  | cons w ws ih =>
    intro n line acc
    simp only [wrapLoop]
    split
    · obtain ⟨tail, ht⟩ := ih (n + 1) (w ++ " ") (acc ++ [line])
      exact ⟨[line] ++ tail, by rw [ht, List.append_assoc]⟩
    · exact ih (n + 1) (line ++ w ++ " ") acc

theorem wrapLoop_join (measure : String → ℕ) (width : ℕ) (ws : List String) :
    ∀ (n : ℕ) (line : String) (acc : List String),
      String.join (wrapLoop measure width ws n line acc) =
        String.join acc ++ line ++ String.join (ws.map (fun w => w ++ " ")) := by
  induction ws with
  | nil =>
    intro n line acc
    simp only [wrapLoop, List.map_nil]
    rw [join_append, join_singleton]
    simp [String.join, String.append_empty]
  | cons w ws ih =>
    intro n line acc
    simp only [wrapLoop, List.map_cons]
    split
    · rw [ih, join_append, join_singleton, join_cons]
      simp [String.append_assoc]
    · rw [ih, join_cons]
      simp [String.append_assoc]

theorem wrapLoop_lines_bounded (measure : String → ℕ) (width : ℕ)
    (WS : List String) (ws : List String) :
    ∀ (n : ℕ) (line : String) (acc : List String),
      (∀ w ∈ ws, w ∈ WS) → 0 < n →
      ((measure line : ℤ) ≤ (width : ℤ) - 40 ∨ ∃ w ∈ WS, line = w ++ " ") →
      (∀ l ∈ acc, (measure l : ℤ) ≤ (width : ℤ) - 40 ∨ ∃ w ∈ WS, l = w ++ " ") →
      ∀ l ∈ wrapLoop measure width ws n line acc,
        (measure l : ℤ) ≤ (width : ℤ) - 40 ∨ ∃ w ∈ WS, l = w ++ " " := by
  induction ws with
  | nil =>
    intro n line acc hws hn hline hacc l hl
    simp only [wrapLoop] at hl
    rw [List.mem_append, List.mem_singleton] at hl
    rcases hl with hl | rfl
    · exact hacc l hl
    · exact hline
  | cons w ws ih =>
    intro n line acc hws hn hline hacc l hl
    simp only [wrapLoop] at hl
    split at hl
    · refine ih (n + 1) (w ++ " ") (acc ++ [line])
        (fun u hu => hws u (List.mem_cons_of_mem w hu)) (Nat.succ_pos n)
        (Or.inr ⟨w, hws w (List.mem_cons_self w ws), rfl⟩) ?_ l hl
      intro l2 hl2
      rw [List.mem_append, List.mem_singleton] at hl2
      rcases hl2 with hl2 | rfl
      · exact hacc l2 hl2
      · exact hline
    · rename_i hcond
      refine ih (n + 1) (line ++ w ++ " ") acc
        (fun u hu => hws u (List.mem_cons_of_mem w hu)) (Nat.succ_pos n) ?_ hacc l hl
      have hle : ¬ ((measure (line ++ w ++ " ") : ℤ) > (width : ℤ) - 40) :=
        fun hA => hcond ⟨hA, hn⟩
      exact Or.inl (not_lt.mp hle)

theorem wrapLoop_line_mem (measure : String → ℕ) (width : ℕ)
    (hmr : ∀ s t, measure s ≤ measure (s ++ t)) (ws : List String) :
    ∀ (n : ℕ) (line : String) (acc : List String), 0 < n →
      (measure line : ℤ) > (width : ℤ) - 40 →
      line ∈ wrapLoop measure width ws n line acc := by
  cases ws with
  | nil =>
    intro n line acc hn hover
    simp [wrapLoop]
  | cons w ws =>
    intro n line acc hn hover
    have h1 : measure line ≤ measure (line ++ w) := hmr line w
    have h2 : measure (line ++ w) ≤ measure (line ++ w ++ " ") := hmr (line ++ w) " "
    have htest : (measure (line ++ w ++ " ") : ℤ) > (width : ℤ) - 40 := by omega
    simp only [wrapLoop]
    rw [if_pos ⟨htest, hn⟩]
    obtain ⟨tail, ht⟩ :=
      wrapLoop_exists_tail measure width ws (n + 1) (w ++ " ") (acc ++ [line])
    rw [ht]
    simp

theorem wrapLoop_overflow_word (measure : String → ℕ) (width : ℕ)
    (hml : ∀ s t, measure t ≤ measure (s ++ t))
    (hmr : ∀ s t, measure s ≤ measure (s ++ t)) (ws : List String) :
    ∀ (n : ℕ) (line : String) (acc : List String) (w : String), 0 < n → w ∈ ws →
      (measure (w ++ " ") : ℤ) > (width : ℤ) - 40 →
      w ++ " " ∈ wrapLoop measure width ws n line acc := by
  induction ws with
  | nil =>
    intro n line acc w hn hw
    cases hw
  | cons u us ih =>
    intro n line acc w hn hw hover
    rcases List.mem_cons.mp hw with rfl | hw2
    · have h1 : measure (w ++ " ") ≤ measure (line ++ (w ++ " ")) := hml line (w ++ " ")
      rw [← String.append_assoc] at h1
      have htest : (measure (line ++ w ++ " ") : ℤ) > (width : ℤ) - 40 := by omega
      simp only [wrapLoop]
      rw [if_pos ⟨htest, hn⟩]
      exact wrapLoop_line_mem measure width hmr us (n + 1) (w ++ " ")
        (acc ++ [line]) (Nat.succ_pos n) hover
    · simp only [wrapLoop]
      split
      · exact ih (n + 1) (u ++ " ") (acc ++ [line]) w (Nat.succ_pos n) hw2 hover
      · exact ih (n + 1) (line ++ u ++ " ") acc w (Nat.succ_pos n) hw2 hover

theorem splitSpaces_ne_nil (s : String) : splitSpaces s ≠ [] := by
  rw [splitSpaces]
  intro h
  rw [List.map_eq_nil_iff] at h
  exact List.splitOnP_ne_nil _ _ h

/-- Claim C1: for every measurement function that is monotone under string
concatenation, the magic caption is split on spaces into lines such that each
line's measured width is at most `width - 40` or the line is a single word
(with the loop's trailing space); the lines concatenate back to exactly the
split words each with one trailing space (so no word is ever split across
lines and order is preserved); and a word whose measured width alone exceeds
`width - 40` still appears alone as its own line. -/
theorem C1_magic_caption_wrapping (measure : String → ℕ) (width : ℕ)
    (selectedCaption : String)
    (hml : ∀ s t, measure t ≤ measure (s ++ t))
    (hmr : ∀ s t, measure s ≤ measure (s ++ t)) :
    (∀ l ∈ wrapCaption measure width selectedCaption,
      (measure l : ℤ) ≤ (width : ℤ) - 40 ∨
        ∃ w ∈ splitSpaces selectedCaption, l = w ++ " ") ∧
    String.join (wrapCaption measure width selectedCaption) =
      String.join ((splitSpaces selectedCaption).map (fun w => w ++ " ")) ∧
    (∀ w ∈ splitSpaces selectedCaption,
      (measure (w ++ " ") : ℤ) > (width : ℤ) - 40 →
        w ++ " " ∈ wrapCaption measure width selectedCaption) := by
  obtain ⟨w0, ws, hsplit⟩ :=
    List.exists_cons_of_ne_nil (splitSpaces_ne_nil selectedCaption)
  refine ⟨?_, ?_, ?_⟩
  · rw [wrapCaption, hsplit]
    simp only [wrapLoop]
    rw [if_neg (by simp), String.empty_append]
    apply wrapLoop_lines_bounded measure width (w0 :: ws) ws (0 + 1) (w0 ++ " ") []
    · intro u hu
      exact List.mem_cons_of_mem w0 hu
    · exact Nat.one_pos
    · exact Or.inr ⟨w0, List.mem_cons_self w0 ws, rfl⟩
    · intro l hl
      cases hl
  · rw [wrapCaption, wrapLoop_join]
    simp [String.join, String.empty_append]
  · intro w hw hover
    rw [wrapCaption, hsplit]
    simp only [wrapLoop]
    rw [if_neg (by simp), String.empty_append]
    rw [hsplit] at hw
    rcases List.mem_cons.mp hw with rfl | hw2
    · exact wrapLoop_line_mem measure width hmr ws 1 (w ++ " ") [] Nat.one_pos hover
    · exact wrapLoop_overflow_word measure width hml hmr ws 1 (w0 ++ " ") [] w
        Nat.one_pos hw2 hover

/-- Witness for C1 with the length measurement on a concrete caption. -/
theorem C1_witness :
    String.join (wrapCaption String.length 100 "hello world") =
      String.join ((splitSpaces "hello world").map (fun w => w ++ " ")) :=
  (C1_magic_caption_wrapping String.length 100 "hello world"
    (fun s t => by rw [String.length_append]; omega)
    (fun s t => by rw [String.length_append]; omega)).2.1

end MemeGen
